/-
Verification of the salad-making RL environments in HARPLab/human_ai_value_alignment.

Shallow embedding of the Python sources:
  * `UpdatedMdp`      — starter_code/updated_mdp.py  (SaladEnv, train_agent sizes)
  * `GymConstrained`  — starter_code/gym_constrained_mdp.py (Ingredient hierarchy,
                        SaladMakingEnv.initialize_ingredients, check_constraints)
  * `GymSalad`        — starter_code/gym_salad.py (finite-state SaladMakingEnv)
  * `TestCli`         — starter_code/test.py (argparse command line)
  * `RepoText`        — program-text facts (which files define which functions,
                        raise/except sites, the violations records across files)

Python dicts are embedded as insertion-ordered association lists, machine-level
exceptions (KeyError, ValueError) as `Option`/`Except`, and Python ints as `Int`
(they are unbounded).
-/
import Mathlib

namespace UpdatedMdp

/-- One entry of `AVAILABLE_INGREDIENTS` (updated_mdp.py lines 19-31; the second
assignment of the global, which overwrites the first at lines 9-17). -/
structure IngredientInfo where
  type : String
  calories : Int
  quantity : Int
  allergy : List String
deriving DecidableEq, Repr

/-- `AVAILABLE_INGREDIENTS` as finally assigned (updated_mdp.py lines 19-31). -/
def AVAILABLE_INGREDIENTS : List (String × IngredientInfo) :=
  [("tomato", ⟨"Vegetable", 20, 3, ["tomato"]⟩),
   ("carrot", ⟨"Vegetable", 15, 2, ["carrot"]⟩),
   ("lettuce", ⟨"Vegetable", 10, 1, ["lettuce"]⟩),
   ("spinach", ⟨"Vegetable", 12, 2, ["spinach"]⟩),
   ("almonds", ⟨"Nuts", 50, 100, ["almond", "nuts"]⟩),
   ("sesame_dressing", ⟨"Dressing", 30, 100, ["sesame"]⟩),
   ("peanuts", ⟨"Nuts", 60, 100, ["peanut", "nuts"]⟩),
   ("cucumber", ⟨"Vegetable", 10, 2, ["cucumber"]⟩),
   ("onion", ⟨"Vegetable", 15, 2, ["onion"]⟩),
   ("cheese", ⟨"Dairy", 90, 50, ["cheese", "dairy"]⟩),
   ("croutons", ⟨"Grain", 80, 20, ["croutons", "gluten"]⟩)]

/-- One value of the user-supplied `recipe` dict: `{"type": ..., "prep_method": ...,
"quantity": ...}`. -/
structure RecipeEntry where
  type : String
  prep_method : Option String
  quantity : Int
deriving DecidableEq, Repr

/-- `self.action_map` (updated_mdp.py lines 44-47), as the list of its values in
key order 0..8. -/
def action_map : List String :=
  ["Measure", "Wash", "Chop", "Dice", "Shred", "Crush", "Grind", "Roast", "Combine"]

/-- The `self.state` dict of `SaladEnv`: set by `set_next_ingredient` either to a
live ingredient dict or to the terminal dict whose values are `None`. -/
structure IngredientState where
  ingredient : Option String
  type : Option String
  prep_method : Option String
  actions_taken : List String
deriving DecidableEq, Repr

/-- The mutable attributes of a `SaladEnv` object (updated_mdp.py lines 33-209).
`violations` is the dict `{"calories": int, "allergies": list, "availability": {}}`;
its `availability` entry is never written by this file, so it is omitted here and
carried at the `RepoText` level instead.  `constraints` is the user dict; its two
read keys are `constraints.get("calories", float("inf"))` (absent = no finite
limit, modelled by `none`) and `constraints.get("allergies", [])`. -/
structure SaladEnv where
  recipe : List (String × RecipeEntry)
  constraints_calories : Option Int
  constraints_allergies : List String
  violations_calories : Int
  violations_allergies : List String
  completed_ingredients : List String
  warnings : List String
  current_calories : Int
  current_ingredient : Option String
  state : IngredientState
  done : Bool
deriving DecidableEq, Repr

/-- `SaladEnv.get_required_actions` (updated_mdp.py lines 167-173), the returned
Python set as an explicit list. -/
def get_required_actions (st : IngredientState) : List String :=
  ["Measure"] ++
    (if st.type = some "Vegetable" then ["Wash"]
     else if st.type = some "Nuts" then ["Roast"]
     else [])

/-- `self.available_ingredients.get(ingredient_name, True)` at updated_mdp.py
line 85: a present entry is a non-empty dict (truthy) and the missing-key default
is `True`, so the value is truthy in every case and the `-500` early return is
dead code. -/
def available_get_truthy (ingredient_name : Option String) : Bool :=
  match ingredient_name.bind (fun n => AVAILABLE_INGREDIENTS.lookup n) with
  | some _ => true
  | none => true

/-- The reward adjustments of `SaladEnv.calculate_reward`
(updated_mdp.py lines 96-142), reached once the three early returns have been
passed.  `reward` starts at 0 and every block adds or subtracts a
reward-independent amount, so the accumulated value is the sum of one term per
source block, in source order. -/
def action_reward (st : IngredientState) (action_name : String) : Int :=
  let previous_actions := st.actions_taken
  let ingredient_type := st.type
  let correct_prep_method := st.prep_method
  -- "Ensure only vegetables are washed" (lines 97-101)
  (if action_name = "Wash" then
      (if ingredient_type = some "Vegetable" then
        (if "Wash" ∉ previous_actions then (50 : Int) else -25)
      else -100)
    else 0) +
  -- roasting (lines 103-112)
  (if action_name = "Roast" then
      (if ingredient_type = some "Nuts" then
        (if "Grind" ∈ previous_actions ∨ "Crush" ∈ previous_actions ∨
            "Dice" ∈ previous_actions then (75 : Int)
        else if "Roast" ∉ previous_actions then 125
        else -10)
      else -100)
    else 0) +
  -- "Ensure dressing only has Measure and Combine" (lines 115-117)
  (if ingredient_type = some "Dressing" ∧ action_name ∉ ["Measure", "Combine"] then
      (-100 : Int) else 0) +
  -- "Reward correct processing action" (lines 120-124)
  (if action_name ∈ ["Chop", "Dice", "Shred", "Crush", "Grind"] then
      (if correct_prep_method = some action_name then (75 : Int) else -50)
    else 0) +
  -- "Penalize repeating an action" (lines 127-128)
  (if action_name ∈ previous_actions then (-50 : Int) else 0) +
  -- "Ensure Wash happens for vegetables" (lines 131-132)
  (if ingredient_type = some "Vegetable" ∧ action_name = "Wash" then
      (if "Wash" ∉ previous_actions then (50 : Int) else -25) else 0) +
  -- "Ensure Roast happens for nuts" (lines 135-136)
  (if ingredient_type = some "Nuts" ∧ action_name = "Roast" then
      (if "Roast" ∉ previous_actions then (75 : Int) else -25) else 0)

/-- The completion bonus of `calculate_reward` (updated_mdp.py lines 161-163):
`+100` for a "Combine" whose previous actions form a superset of
`get_required_actions()`. -/
def combine_bonus (st : IngredientState) (action_name : String) : Int :=
  if action_name = "Combine" ∧
      (get_required_actions st).all (fun a => a ∈ st.actions_taken) then 100 else 0

/-- The side effects of `calculate_reward` on the environment
(updated_mdp.py lines 138-158): calorie tracking, the calorie-limit warning, and
allergy violations/warnings, given the entry `info` that
`self.available_ingredients[ingredient_name]` found. -/
def track_constraints (env : SaladEnv) (info : IngredientInfo) : SaladEnv :=
  let current_calories := env.current_calories + info.calories
  let violations_calories :=
    match env.constraints_calories with
    | some calorie_limit =>
      if current_calories > calorie_limit then current_calories - calorie_limit
      else env.violations_calories
    | none => env.violations_calories
  let cal_warnings :=
    match env.constraints_calories with
    | some calorie_limit =>
      if current_calories > calorie_limit then
        [s!"Warning: Calorie limit exceeded by {current_calories - calorie_limit} calories!"]
      else ([] : List String)
    | none => ([] : List String)
  let inter := match env.state.ingredient with
    | some _ => info.allergy.filter (fun a => a ∈ env.constraints_allergies)
    | none => []
  let violations_allergies :=
    match env.state.ingredient with
    | some n =>
      if inter ≠ [] ∧ n ∉ env.violations_allergies then
        env.violations_allergies ++ [n]
      else env.violations_allergies
    | none => env.violations_allergies
  let allergy_warnings :=
    match env.state.ingredient with
    | some n =>
      if inter ≠ [] then
        [s!"Warning: Allergy violation! {n} contains allergens: {inter}"]
      else ([] : List String)
    | none => ([] : List String)
  { env with
      current_calories := current_calories
      violations_calories := violations_calories
      violations_allergies := violations_allergies
      warnings := env.warnings ++ cal_warnings ++ allergy_warnings }

/-- `SaladEnv.calculate_reward` (updated_mdp.py lines 77-165).  Besides the
returned reward it mutates `current_calories`, `violations` and `warnings`, so it
is embedded as `env → action_name → Option (reward × env)`; the `none` case is
the `KeyError` of `self.available_ingredients[ingredient_name]` at line 139 when
the current ingredient is not a key of `AVAILABLE_INGREDIENTS` (the three early
returns at lines 85-94 fire before that access). -/
def calculate_reward (env : SaladEnv) (action_name : String) : Option (Int × SaladEnv) :=
  if !(available_get_truthy env.state.ingredient) then some (-500, env)
  else if env.state.actions_taken.length = 0 then
    some ((if action_name = "Measure" then (100 : Int) else -100), env)
  else if "Measure" ∉ env.state.actions_taken then some (-50, env)
  else
    match env.state.ingredient.bind (fun n => AVAILABLE_INGREDIENTS.lookup n) with
    | none => none
    | some info =>
      some (action_reward env.state action_name + combine_bonus env.state action_name,
            track_constraints env info)

/-- `SaladEnv.set_next_ingredient` (updated_mdp.py lines 183-195); the match
scrutinee is `remaining_ingredients`. -/
def set_next_ingredient (env : SaladEnv) : SaladEnv :=
  match (env.recipe.map Prod.fst).filter (fun i => i ∉ env.completed_ingredients) with
  | i :: _ =>
    { env with
        current_ingredient := some i
        state :=
          { ingredient := some i
            type := (env.recipe.lookup i).map (fun e => e.type)
            prep_method := (env.recipe.lookup i).bind (fun e => e.prep_method)
            actions_taken := [] } }
  | [] =>
    { env with
        done := true
        state :=
          { ingredient := none, type := none, prep_method := none, actions_taken := [] } }

/-- `SaladEnv.reset` (updated_mdp.py lines 202-209).  Note that it does not reset
`violations`. -/
def reset (env : SaladEnv) : SaladEnv :=
  set_next_ingredient
    { env with
        completed_ingredients := []
        done := false
        current_calories := 0
        warnings := [] }

/-- `SaladEnv.__init__` (updated_mdp.py lines 34-57): fresh violations record,
then `self.reset()`. -/
def SaladEnv.init (recipe : List (String × RecipeEntry))
    (constraints_calories : Option Int) (constraints_allergies : List String) :
    SaladEnv :=
  reset
    { recipe := recipe
      constraints_calories := constraints_calories
      constraints_allergies := constraints_allergies
      violations_calories := 0
      violations_allergies := []
      completed_ingredients := []
      warnings := []
      current_calories := 0
      current_ingredient := none
      state := { ingredient := none, type := none, prep_method := none, actions_taken := [] }
      done := false }

theorem action_map_length : action_map.length = 9 := rfl

/-- `self.completed_ingredients.add(self.current_ingredient)`
(updated_mdp.py line 70); membership is all that is ever read of the set, so an
append models it. -/
def add_completed (env : SaladEnv) : SaladEnv :=
  match env.current_ingredient with
  | some c => { env with completed_ingredients := env.completed_ingredients ++ [c] }
  | none => env

/-- `self.state["actions_taken"].append(action_name)` (updated_mdp.py
line 67). -/
def append_action (env : SaladEnv) (action_name : String) : SaladEnv :=
  { env with
      state := { env.state with
        actions_taken := env.state.actions_taken ++ [action_name] } }

/-- `SaladEnv.step` (updated_mdp.py lines 60-75), as the evolution of the object
state together with the returned reward. -/
def step (env : SaladEnv) (action : Fin 9) : Option (Int × SaladEnv) :=
  if env.done then some (0, env)
  else
    match calculate_reward env (action_map.get (Fin.cast action_map_length.symm action)) with
    | none => none
    | some (reward, env1) =>
      if action_map.get (Fin.cast action_map_length.symm action) = "Combine" then
        some (reward,
          set_next_ingredient (add_completed
            (append_action env1 (action_map.get (Fin.cast action_map_length.symm action)))))
      else
        some (reward,
          append_action env1 (action_map.get (Fin.cast action_map_length.symm action)))

/-- Run a finite sequence of actions through `step` from a given environment
state, tracking the object state after each step. -/
def run : SaladEnv → List (Fin 9) → Option SaladEnv
  | env, [] => some env
  | env, a :: rest =>
    match step env a with
    | some (_, env') => run env' rest
    | none => none

/-- `SaladEnv.encode_state` (updated_mdp.py lines 175-181):
`ingredient_index * len(action_map) + int(binary action vector, 2)`.
`current_ingredient` is unset before the first `reset` assigns it (Python would
raise `AttributeError`); that case is unreachable for a non-empty recipe. -/
def encode_state (env : SaladEnv) : Nat :=
  let ingredient_index :=
    match env.current_ingredient with
    | some c => (env.recipe.map Prod.fst).indexOf c
    | none => 0
  let bits := action_map.foldl
    (fun b a => 2 * b + (if a ∈ env.state.actions_taken then 1 else 0)) 0
  ingredient_index * action_map.length + bits

/-- `self.state_space = len(recipe.keys()) * len(self.action_map)`
(updated_mdp.py line 50), the size of the `Discrete` observation space. -/
def state_space (env : SaladEnv) : Nat := env.recipe.length * action_map.length

/-- `num_states = 2 ** len(env.action_map) * len(env.recipe.keys())` — the number
of Q-table rows allocated by `train_agent` (updated_mdp.py line 218). -/
def train_agent_num_states (env : SaladEnv) : Nat :=
  2 ^ action_map.length * env.recipe.length

/-- The reference quantity of claim C10: the sum over the recipe's ingredients of
each ingredient's calories value from `AVAILABLE_INGREDIENTS`, counted once per
ingredient. -/
def recipe_calorie_total (recipe : List (String × RecipeEntry)) : Int :=
  (recipe.map
    (fun p => (((AVAILABLE_INGREDIENTS.lookup p.fst).map (fun i => i.calories)).getD 0))).sum

end UpdatedMdp

namespace GymConstrained

/-- The Python classes `Vegetable`, `Dressing`, `Nuts`
(gym_constrained_mdp.py lines 48-66). -/
inductive IngClass
  | Vegetable
  | Dressing
  | Nuts
deriving DecidableEq, Repr

/-- The attributes of an `Ingredient` object (gym_constrained_mdp.py lines 7-20),
with the defaults set by `__init__`. -/
structure Ingredient where
  name : String
  cls : IngClass
  available_quantity : Int
  calories : Int
  dietary_restrictions : List String
  state : String := "raw"
  prep_step : Nat := 0
  requested_quantity : Int := 0
  prep_flow : List String := []
deriving DecidableEq, Repr

/-- `self.possible_actions`: the base dict `{"Measure": ["Measure"],
"Combine": ["Combine"]}` plus the `.update(...)` performed by each subclass
`__init__` (gym_constrained_mdp.py lines 13-16, 51-54, 63-66), in insertion
order. -/
def possible_actions (cls : IngClass) : List (String × List String) :=
  [("Measure", ["Measure"]), ("Combine", ["Combine"])] ++
    (match cls with
     | .Vegetable => [("Wash", ["Wash"]), ("Prepare", ["Chop", "Dice", "Shred"])]
     | .Dressing => []
     | .Nuts => [("Prepare", ["Crush", "Dice", "Grind"]), ("Roast", ["Roast"])])

/-- `ingredient.possible_actions['Prepare']`, guarded in the source by
`"Prepare" in ingredient.possible_actions.keys()`. -/
def prepare_list (cls : IngClass) : List String :=
  ((possible_actions cls).lookup "Prepare").getD []

/-- `AVAILABLE_INGREDIENTS` of gym_constrained_mdp.py (lines 68-75). -/
def AVAILABLE_INGREDIENTS : List (String × Ingredient) :=
  [("tomato", { name := "tomato", cls := .Vegetable, available_quantity := 2,
                calories := 20, dietary_restrictions := [] }),
   ("carrot", { name := "carrot", cls := .Vegetable, available_quantity := 3,
                calories := 25, dietary_restrictions := [] }),
   ("lettuce", { name := "lettuce", cls := .Vegetable, available_quantity := 2,
                 calories := 10, dietary_restrictions := [] }),
   ("spinach", { name := "spinach", cls := .Vegetable, available_quantity := 3,
                 calories := 15, dietary_restrictions := [] }),
   ("almonds", { name := "almonds", cls := .Nuts, available_quantity := 100,
                 calories := 50, dietary_restrictions := ["nut"] }),
   ("sesame_dressing", { name := "sesame_dressing", cls := .Dressing,
                         available_quantity := 100, calories := 60,
                         dietary_restrictions := [] })]

/-- One value of the `recipe` dict passed to `SaladMakingEnv`
(gym_constrained_mdp.py lines 238-246).  The code reads only
`details.get("quantity", 0)` and `details.get("prep_method")`; the `"type"` key
is never read. -/
structure GRecipeEntry where
  type : Option String := none
  quantity : Option Int := none
  prep_method : Option String := none
deriving DecidableEq, Repr

/-- `Ingredient.apply_ingredient_effects` (gym_constrained_mdp.py lines 38-42);
the `else` branch raises `ValueError`. -/
def apply_ingredient_effects (ing : Ingredient) : Except String Ingredient :=
  if ing.requested_quantity ≤ ing.available_quantity then
    Except.ok { ing with available_quantity := ing.available_quantity - ing.requested_quantity }
  else
    Except.error s!"Not enough {ing.name} available"

/-- The prep-flow assignment block of `SaladMakingEnv.initialize_ingredients`
(gym_constrained_mdp.py lines 106-124), acting on one ingredient object whose
`requested_quantity` has already been set.  A raised `ValueError` (line 111) is
`Except.error`.  Note the two independent `if isinstance` tests in the
`prep_method` branch and the `if/elif/elif` in the `else` branch: a `Dressing`
with a `prep_method` falls through both tests and keeps its previous
`prep_flow`. -/
def assign_prep_flow (ing : Ingredient) (prep_method : Option String) :
    Except String Ingredient :=
  match prep_method with
  | some pm =>
    if ("Prepare" ∈ (possible_actions ing.cls).map Prod.fst) ∧ pm ∉ prepare_list ing.cls then
      Except.error s!"Invalid prep method {pm} for ingredient: {ing.name}"
    else
      let ing := if ing.cls = .Vegetable then
          { ing with prep_flow := ["Measure", "Wash", pm, "Combine"] } else ing
      let ing := if ing.cls = .Nuts then
          { ing with prep_flow := ["Measure", pm, "Roast", "Combine"] } else ing
      Except.ok ing
  | none =>
    Except.ok <|
      if ing.cls = .Vegetable then { ing with prep_flow := ["Measure", "Wash", "Combine"] }
      else if ing.cls = .Nuts then { ing with prep_flow := ["Measure", "Roast", "Combine"] }
      else if ing.cls = .Dressing then { ing with prep_flow := ["Measure", "Combine"] }
      else ing

/-- Values of `self.violations['availability']` in gym_constrained_mdp.py:
the string `"Unavailable"` (line 93) or the integer `excess_request`
(line 103). -/
inductive AvailViol
  | unavailable
  | excess (n : Int)
deriving DecidableEq, Repr

/-- The loop body of `SaladMakingEnv.initialize_ingredients`
(gym_constrained_mdp.py lines 88-128), processing recipe entries in order while
accumulating the `ingredients` dict and the `violations['availability']` dict. -/
def initialize_go :
    List (String × GRecipeEntry) → List (String × Ingredient) →
    List (String × AvailViol) →
    Except String (List (String × Ingredient) × List (String × AvailViol))
  | [], ingredients, violations => Except.ok (ingredients, violations)
  | (ingredient_name, details) :: rest, ingredients, violations =>
    match AVAILABLE_INGREDIENTS.lookup ingredient_name with
    | none =>
      initialize_go rest ingredients (violations ++ [(ingredient_name, AvailViol.unavailable)])
    | some ingredient0 =>
      let ingredient := { ingredient0 with requested_quantity := details.quantity.getD 0 }
      if ingredient.available_quantity < ingredient.requested_quantity then
        initialize_go rest ingredients
          (violations ++ [(ingredient_name,
            AvailViol.excess (ingredient.requested_quantity - ingredient.available_quantity))])
      else
        match assign_prep_flow ingredient details.prep_method with
        | Except.error e => Except.error e
        | Except.ok ingredient =>
          initialize_go rest (ingredients ++ [(ingredient_name, ingredient)]) violations

/-- `SaladMakingEnv.initialize_ingredients` (gym_constrained_mdp.py
lines 88-128). -/
def initialize_ingredients (recipe : List (String × GRecipeEntry)) :
    Except String (List (String × Ingredient) × List (String × AvailViol)) :=
  initialize_go recipe [] []

/-- The prep flow claim C3 asserts `initialize_ingredients` assigns, read off the
claim's words (in particular: a Dressing "always" gets `["Measure", "Combine"]`). -/
def claimed_prep_flow (cls : IngClass) (prep_method : Option String) : List String :=
  match cls, prep_method with
  | .Vegetable, some pm => ["Measure", "Wash", pm, "Combine"]
  | .Vegetable, none => ["Measure", "Wash", "Combine"]
  | .Nuts, some pm => ["Measure", pm, "Roast", "Combine"]
  | .Nuts, none => ["Measure", "Roast", "Combine"]
  | .Dressing, _ => ["Measure", "Combine"]

/-- The prep flow the code actually assigns (claim C3 as amended): like
`claimed_prep_flow`, except that a Dressing given a `prep_method` keeps its
previous flow, and a Vegetable or Nuts given a `prep_method` outside its
`Prepare` actions raises `ValueError` (`none` here). -/
def amended_prep_flow (prior : List String) (cls : IngClass) (prep_method : Option String) :
    Option (List String) :=
  match cls, prep_method with
  | .Vegetable, some pm =>
    if pm ∈ ["Chop", "Dice", "Shred"] then some ["Measure", "Wash", pm, "Combine"] else none
  | .Vegetable, none => some ["Measure", "Wash", "Combine"]
  | .Nuts, some pm =>
    if pm ∈ ["Crush", "Dice", "Grind"] then some ["Measure", pm, "Roast", "Combine"] else none
  | .Nuts, none => some ["Measure", "Roast", "Combine"]
  | .Dressing, some _ => some prior
  | .Dressing, none => some ["Measure", "Combine"]

end GymConstrained

namespace GymSalad

/-- `self.states` (gym_salad.py lines 18-21). -/
def states : List String :=
  ["Start", "Measuring", "Cleaning", "Cutting", "Mixing",
   "Dressing", "Serving", "Task Complete", "Clarification", "Substitute"]

/-- `self.actions` (gym_salad.py lines 24-27): the 8 actions of the agent's
`Discrete(8)` action space. -/
def actions : List String :=
  ["Measure", "Clean", "Cut", "Mix", "Add Dressing",
   "Serve", "Clarify", "Substitute"]

/-- `self.rewards` (gym_salad.py lines 33-37). -/
def rewards : List (String × Int) :=
  [("Measure", 10), ("Clean", 10), ("Cut", 10),
   ("Mix", 10), ("Add Dressing", 10), ("Serve", 100),
   ("Clarify", 0), ("Substitute", 0), ("Invalid", -10)]

/-- `self.transitions` (gym_salad.py lines 40-50).  States 6 ("Serving") has only
the `"Complete"` edge, and state 7 ("Task Complete") has no entry at all. -/
def transitions : List (Nat × List (String × Nat)) :=
  [(0, [("Measure", 1), ("Clarify", 8)]),
   (1, [("Clean", 2), ("Clarify", 8)]),
   (2, [("Cut", 3), ("Clarify", 8)]),
   (3, [("Mix", 4), ("Clarify", 8)]),
   (4, [("Add Dressing", 5), ("Clarify", 8)]),
   (5, [("Serve", 6), ("Clarify", 8)]),
   (6, [("Complete", 7)]),
   (8, [("Substitute", 9), ("Measure", 1)]),
   (9, [("Measure", 1)])]

theorem actions_length : actions.length = 8 := rfl

/-- `SaladMakingEnv.step` (gym_salad.py lines 52-73), as a function of the current
state.  `none` is the `KeyError` of `self.transitions[self.state]` for a state
with no transition entry.  The returned triple is `(next_state, reward, done)`;
`done = (self.state == 7)` is computed from the state *before* the update. -/
def step (state : Nat) (action : Fin 8) : Option (Nat × Int × Bool) :=
  let action_name := actions.get (Fin.cast actions_length.symm action)
  match transitions.lookup state with
  | none => none
  | some row =>
    let next : Nat × String :=
      match row.lookup action_name with
      | some next_state => (next_state, action_name)
      | none => (state, "Invalid")
    let reward := (rewards.lookup next.snd).getD (-10)
    let done := decide (state = 7)
    some (next.fst, reward, done)

/-- `SaladMakingEnv.reset` (gym_salad.py lines 75-78). -/
def reset : Nat := 0

/-- Iterate `step` over a finite action sequence, returning the final state
(`none` if any step raised). -/
def run : Nat → List (Fin 8) → Option Nat
  | s, [] => some s
  | s, a :: rest =>
    match step s a with
    | some (ns, _, _) => run ns rest
    | none => none

/-- The state indices reachable from `reset`: every state except
7 ("Task Complete"). -/
def valid_states : List Nat := [0, 1, 2, 3, 4, 5, 6, 8, 9]

/-- Decidable one-step check: from `s`, action `a` yields `some` result whose next
state is again in `valid_states` and whose `done` flag is `false`. -/
def step_ok (s : Nat) (a : Fin 8) : Bool :=
  match step s a with
  | some (ns, _, d) => decide (ns ∈ valid_states) && !d
  | none => false

end GymSalad

namespace TestCli

/-- The two values `main(args.qtable, args.trials)` receives (test.py
lines 188-196). -/
structure TestArgs where
  qtable : String
  trials : Int
deriving DecidableEq, Repr

/-- The argparse defaults: `--qtable` defaults to `"trained_q_table.pkl"`,
`--trials` to `10` (test.py lines 190-193). -/
def default_args : TestArgs := { qtable := "trained_q_table.pkl", trials := 10 }

/-- The `type=int` conversion argparse applies to the `--trials` value: an
optionally minus-signed non-empty decimal numeral, anything else a parse
error. -/
def digits_to_nat (cs : List Char) : Option Nat :=
  if cs ≠ [] ∧ cs.all (fun c => c.isDigit) then
    some (cs.foldl (fun n c => n * 10 + (c.toNat - 48)) 0)
  else none

/-- `int(v)` on the raw flag value, as a function of the string's characters. -/
def str_to_int (s : String) : Option Int :=
  match s.data with
  | '-' :: rest => (digits_to_nat rest).map (fun n => -(n : Int))
  | cs => (digits_to_nat cs).map (fun n => (n : Int))

/-- The behaviour of the argparse parser configured in test.py lines 189-194: the
only recognised flags are `--qtable` (a string) and `--trials` (an int); anything
else is rejected ("unrecognized arguments"), as is a flag without its value or a
non-integer `--trials` value. -/
def parse_args_loop : TestArgs → List String → Except String TestArgs
  | acc, [] => Except.ok acc
  | acc, tok :: rest =>
    if tok = "--qtable" then
      match rest with
      | v :: rest2 => parse_args_loop { acc with qtable := v } rest2
      | [] => Except.error "argument --qtable: expected one argument"
    else if tok = "--trials" then
      match rest with
      | v :: rest2 =>
        match str_to_int v with
        | some n => parse_args_loop { acc with trials := n } rest2
        | none => Except.error s!"argument --trials: invalid int value: {v}"
      | [] => Except.error "argument --trials: expected one argument"
    else Except.error s!"unrecognized arguments: {tok}"

/-- `args = parser.parse_args()` (test.py line 194). -/
def parse_args (argv : List String) : Except String TestArgs :=
  parse_args_loop default_args argv

/-- The `__main__` block of test.py (lines 188-196): parse the command line, then
call `main(args.qtable, args.trials)` — i.e. `main` receives exactly the two
parsed values. -/
def main_invocation (argv : List String) : Except String (String × Int) :=
  (parse_args argv).map (fun args => (args.qtable, args.trials))

end TestCli

namespace RepoText

/-- The eight Python source files of the repository. -/
def src_files : List String :=
  ["robot-cooking/salad_mdp.py",
   "simple_rl/agents/PolicyGradientAgentClass.py",
   "starter_code/gym_constrained_mdp.py",
   "starter_code/gym_salad.py",
   "starter_code/simple_rl_salad.py",
   "starter_code/test.py",
   "starter_code/updated_mdp.py",
   "tasks/grid_world/GridWorldMDPClass.py"]

/-- The names of the functions and methods defined (`def NAME(...)`) in each
source file, in textual order. -/
def defs_in (file : String) : List String :=
  if file = "robot-cooking/salad_mdp.py" then
    ["transition_func", "reward_func", "_transition_logic", "_reward_logic",
     "__init__", "features", "__str__", "__init__", "act"]
  else if file = "simple_rl/agents/PolicyGradientAgentClass.py" then
    ["__init__", "act", "update"]
  else if file = "starter_code/gym_constrained_mdp.py" then
    ["__init__", "update_state", "apply_ingredient_effects", "is_ready",
     "__init__", "__init__", "__init__", "__init__", "initialize_ingredients",
     "step", "get_stage", "reset", "get_observation", "check_constraints"]
  else if file = "starter_code/gym_salad.py" then
    ["__init__", "step", "reset", "render"]
  else if file = "starter_code/simple_rl_salad.py" then
    ["reward_func", "transition_func"]
  else if file = "starter_code/test.py" then
    ["run_trial", "count_violations", "evaluate_policy", "plot_rewards",
     "plot_violations", "main"]
  else if file = "starter_code/updated_mdp.py" then
    ["__init__", "step", "calculate_reward", "get_required_actions",
     "encode_state", "set_next_ingredient", "render", "reset",
     "train_agent", "test_policy"]
  else if file = "tasks/grid_world/GridWorldMDPClass.py" then
    ["__init__", "_rewardFunction", "_transitionFunction", "__str__", "main"]
  else []

/-- A `raise` statement in the source: file, line, exception class.  The three
raise sites are gym_constrained_mdp.py lines 42 and 111 (both `ValueError`; the
one at line 35 is commented out) and PolicyGradientAgentClass.py line 15
(`NotImplementedError`). -/
structure RaiseSite where
  file : String
  line : Nat
  exn : String
deriving DecidableEq, Repr

/-- All `raise` statements present in the source. -/
def raise_sites : List RaiseSite :=
  [{ file := "starter_code/gym_constrained_mdp.py", line := 42, exn := "ValueError" },
   { file := "starter_code/gym_constrained_mdp.py", line := 111, exn := "ValueError" },
   { file := "simple_rl/agents/PolicyGradientAgentClass.py", line := 15,
     exn := "NotImplementedError" }]

/-- The `try`/`except` clauses present in the source, as
`(file, line, caught class)` with `none` for a bare `except:` — there are none of
either kind anywhere in the eight files. -/
def except_clauses : List (String × Nat × Option String) := []

/-- Whether some `except` clause encloses (and so can catch) a raise site.  With
no `except` clauses in the source no raise site is handled. -/
def handled (r : RaiseSite) : Bool :=
  except_clauses.any (fun c => c.fst = r.file)

/-- Python values, for the dynamic type of `violations` entries. -/
inductive PyVal
  | int (n : Int)
  | str (s : String)
  | list (l : List PyVal)
  | dict (d : List (String × PyVal))

/-- The dynamic type of a Python value. -/
inductive PyTy
  | int
  | str
  | list
  | dict
deriving DecidableEq, Repr

/-- `type(...)` of an embedded Python value. -/
def PyVal.ty : PyVal → PyTy
  | .int _ => .int
  | .str _ => .str
  | .list _ => .list
  | .dict _ => .dict

/-- `{"calories": 0, "allergies": [], "availability": {}}` — the `violations`
record as initialised in *both* files that maintain one (updated_mdp.py line 41,
gym_constrained_mdp.py lines 83 and 212). -/
def violations_init : List (String × PyVal) :=
  [("calories", PyVal.int 0), ("allergies", PyVal.list []), ("availability", PyVal.dict [])]

/-- Update the value stored under key `k` of a dict by `g` (other keys
untouched). -/
def map_key : List (String × PyVal) → String → (PyVal → PyVal) → List (String × PyVal)
  | [], _, _ => []
  | (a, b) :: t, k, g =>
    if a = k then (a, g b) :: map_key t k g else (a, b) :: map_key t k g

/-- `violations["calories"] = overshoot` (updated_mdp.py line 145,
gym_constrained_mdp.py line 226). -/
def set_calories (v : List (String × PyVal)) (n : Int) : List (String × PyVal) :=
  map_key v "calories" (fun _ => PyVal.int n)

/-- `violations["allergies"].append(x)` (updated_mdp.py line 156 appends the
ingredient name, gym_constrained_mdp.py line 232 appends the restriction). -/
def append_allergy (v : List (String × PyVal)) (s : String) : List (String × PyVal) :=
  map_key v "allergies"
    (fun val => match val with
      | PyVal.list l => PyVal.list (l ++ [PyVal.str s])
      | other => other)

/-- Setting a key of an embedded Python dict (insert or overwrite). -/
def assoc_set (d : List (String × PyVal)) (k : String) (x : PyVal) :
    List (String × PyVal) :=
  if k ∈ d.map Prod.fst then d.map (fun p => if p.1 = k then (p.1, x) else p)
  else d ++ [(k, x)]

/-- `violations['availability'][name] = x` (gym_constrained_mdp.py lines 93
and 103). -/
def set_availability (v : List (String × PyVal)) (name : String) (x : PyVal) :
    List (String × PyVal) :=
  map_key v "availability"
    (fun val => match val with
      | PyVal.dict d => PyVal.dict (assoc_set d name x)
      | other => other)

/-- The two source files that maintain a `violations` record. -/
inductive ViolFile
  | updated_mdp
  | gym_constrained_mdp
deriving DecidableEq, Repr

/-- The values the `violations` attribute can reach in each file, closed under
exactly the writes that file performs: both files initialise it to
`violations_init` (and gym_constrained_mdp.py's `reset` re-creates that value),
both overwrite `violations["calories"]` with an int and append to
`violations["allergies"]`, and only gym_constrained_mdp.py writes
`violations['availability'][name]` (a string `"Unavailable"` or an int excess,
lines 93/103). -/
inductive ViolReachable : ViolFile → List (String × PyVal) → Prop
  | init (f : ViolFile) : ViolReachable f violations_init
  | set_cal (f : ViolFile) (v : List (String × PyVal)) (n : Int) :
      ViolReachable f v → ViolReachable f (set_calories v n)
  | add_allergy (f : ViolFile) (v : List (String × PyVal)) (s : String) :
      ViolReachable f v → ViolReachable f (append_allergy v s)
  | avail_unavailable (v : List (String × PyVal)) (name : String) :
      ViolReachable ViolFile.gym_constrained_mdp v →
      ViolReachable ViolFile.gym_constrained_mdp
        (set_availability v name (PyVal.str "Unavailable"))
  | avail_excess (v : List (String × PyVal)) (name : String) (n : Int) :
      ViolReachable ViolFile.gym_constrained_mdp v →
      ViolReachable ViolFile.gym_constrained_mdp
        (set_availability v name (PyVal.int n))

end RepoText

section Claims

open UpdatedMdp GymConstrained GymSalad TestCli RepoText

/-- A one-ingredient recipe used as concrete input: `tomato` is a `Vegetable`
in `AVAILABLE_INGREDIENTS` with 20 calories. -/
def tomato_recipe : List (String × UpdatedMdp.RecipeEntry) :=
  [("tomato", { type := "Vegetable", prep_method := some "Dice", quantity := 2 })]

/-- C8 (code_bug): the failing input.  For the one-ingredient recipe, the
declared observation space `Discrete(len(recipe) * len(action_map))` has size
`1 * 9 = 9`, but after the single action `1` ("Wash") from reset, `encode_state`
returns `0 * 9 + int("010000000", 2) = 128`, which is far outside the declared
observation space (though inside the `2 ** 9 * len(recipe)` Q-table of
`train_agent`). -/
theorem C8_encode_state_escapes_observation_space :
    (UpdatedMdp.run (SaladEnv.init tomato_recipe (some 300) []) [1]).map encode_state =
      some 128 ∧
    state_space (SaladEnv.init tomato_recipe (some 300) []) = 9 ∧
    ¬ (128 < 9) :=
  ⟨rfl, rfl, by omega⟩

/-- C10 (code_bug): the failing input.  Combining `tomato` immediately (action
`8`) ends the episode via the `len(previous_actions) == 0` early return of
`calculate_reward`, which skips the calorie tracking entirely: the completed
episode ends with `current_calories = 0`, while the recipe's calorie total from
`AVAILABLE_INGREDIENTS` is `20` (the code instead adds the current ingredient's
calories once per non-early-returned action, e.g. `40` after
`Measure, Wash, Combine`). -/
theorem C10_current_calories_not_recipe_total :
    (UpdatedMdp.run (SaladEnv.init tomato_recipe (some 300) ["peanut"]) [8]).map
        (fun e => (e.done, e.current_calories)) = some (true, 0) ∧
    recipe_calorie_total tomato_recipe = 20 ∧
    ((0 : Int) ≠ 20) :=
  ⟨rfl, rfl, by omega⟩

/-- C5 (counterexample): `check_constraints` is defined in only one of the eight
source files, so there is no second definition for its signature and body to
disagree with. -/
theorem C5_counterexample :
    ¬ (2 ≤ (src_files.filter (fun f => "check_constraints" ∈ defs_in f)).length) := by
  decide

/-- C5 as amended: exactly one source file of the repository snapshot —
starter_code/gym_constrained_mdp.py — defines a function named
`check_constraints`. -/
theorem C5_amended_unique_check_constraints :
    src_files.filter (fun f => "check_constraints" ∈ defs_in f) =
      ["starter_code/gym_constrained_mdp.py"] ∧
    "check_constraints" ∈ defs_in "starter_code/gym_constrained_mdp.py" := by
  constructor
  · decide
  · decide

/-- C6 (counterexample): the claim requires a bare `except` clause to exist in
the source and a `ValueError` raise site that is caught by a handler; the source
has no `except` clause of any kind, so both parts fail. -/
theorem C6_counterexample :
    ¬ ((∃ c ∈ except_clauses, c.2.2 = none) ∧
       (∃ r ∈ raise_sites, r.exn = "ValueError" ∧ handled r = true) ∧
       (∃ r ∈ raise_sites, r.exn = "ValueError" ∧ handled r = false)) := by
  rintro ⟨⟨c, hc, -⟩, -, -⟩
  simp [except_clauses] at hc

/-- A recipe entry whose `prep_method` "Roast" is not among the Vegetable
`Prepare` actions `["Chop", "Dice", "Shred"]`, driving
`initialize_ingredients` into its `raise ValueError` at line 111. -/
def bad_prep_recipe : List (String × GRecipeEntry) :=
  [("tomato", { type := some "Vegetable", quantity := some 1, prep_method := some "Roast" })]

/-- C6 as amended: the source contains no `except` clauses at all (in particular
no bare ones), so no raised `ValueError` is ever caught: both `ValueError` raise
sites propagate — `apply_ingredient_effects` errors whenever the requested
quantity exceeds the available quantity, and `initialize_ingredients` errors on
an invalid prep method. -/
theorem C6_amended_no_handlers :
    except_clauses = [] ∧
    (∀ r ∈ raise_sites, handled r = false) ∧
    (∀ ing : Ingredient, ing.available_quantity < ing.requested_quantity →
      apply_ingredient_effects ing = Except.error s!"Not enough {ing.name} available") ∧
    initialize_ingredients bad_prep_recipe =
      Except.error "Invalid prep method Roast for ingredient: tomato" := by
  refine ⟨rfl, by decide, ?_, rfl⟩
  intro ing h
  unfold apply_ingredient_effects
  rw [if_neg (by omega)]

/-- Witness for `C6_amended_no_handlers`: requesting 5 tomatoes when only 2 are
available raises. -/
theorem C6_witness :
    apply_ingredient_effects
      { name := "tomato", cls := .Vegetable, available_quantity := 2, calories := 20,
        dietary_restrictions := [], requested_quantity := 5 } =
      Except.error "Not enough tomato available" :=
  C6_amended_no_handlers.2.2.1
    { name := "tomato", cls := .Vegetable, available_quantity := 2, calories := 20,
      dietary_restrictions := [], requested_quantity := 5 } (by decide)

/-- C7: the CLI of test.py accepts exactly the two flags `--qtable` (string,
default `"trained_q_table.pkl"`) and `--trials` (int, default `10`) and no
others, and `main` is invoked with exactly the two parsed values. -/
theorem C7_cli_two_flags :
    parse_args [] = Except.ok default_args ∧
    default_args.qtable = "trained_q_table.pkl" ∧
    default_args.trials = 10 ∧
    (∀ tok rest, tok ≠ "--qtable" → tok ≠ "--trials" →
      parse_args (tok :: rest) = Except.error s!"unrecognized arguments: {tok}") ∧
    (∀ p v n, str_to_int v = some n →
      main_invocation ["--qtable", p, "--trials", v] = Except.ok (p, n)) := by
  refine ⟨rfl, rfl, rfl, ?_, ?_⟩
  · intro tok rest h1 h2
    unfold parse_args parse_args_loop
    rw [if_neg h1, if_neg h2]
  · intro p v n h
    simp [main_invocation, parse_args, parse_args_loop, h, Except.map]

/-- Witness for `C7_cli_two_flags`: a concrete command line. -/
theorem C7_witness :
    main_invocation ["--qtable", "my_table.pkl", "--trials", "7"] =
      Except.ok ("my_table.pkl", 7) :=
  C7_cli_two_flags.2.2.2.2 "my_table.pkl" "7" 7 (by decide)

/-- The C3 counterexample input: a Dressing entry that *does* carry a
`prep_method`. -/
def dressing_prep_recipe : List (String × GRecipeEntry) :=
  [("sesame_dressing", { type := some "Dressing", quantity := some 1,
                         prep_method := some "Dice" })]

/-- C3 (counterexample): for an available Dressing with sufficient quantity but a
given `prep_method`, `initialize_ingredients` leaves `prep_flow` empty — the
`if prep_method:` branch has no Dressing case — while the claim says a Dressing
always gets `["Measure", "Combine"]`. -/
theorem C3_counterexample :
    initialize_ingredients dressing_prep_recipe =
      Except.ok
        ([("sesame_dressing",
           { name := "sesame_dressing", cls := .Dressing, available_quantity := 100,
             calories := 60, dietary_restrictions := [], requested_quantity := 1,
             prep_flow := [] })], []) ∧
    claimed_prep_flow .Dressing (some "Dice") = ["Measure", "Combine"] ∧
    ([] : List String) ≠ ["Measure", "Combine"] :=
  ⟨rfl, rfl, by decide⟩

end Claims

section ClaimsGymSalad

open GymSalad

/-- Every state in `valid_states` steps, under every action, to a state again in
`valid_states`, with `done = false`.  A 72-case finite check. -/
theorem gymsalad_step_ok_all : ∀ s ∈ valid_states, ∀ a : Fin 8, step_ok s a = true := by
  decide

/-- States reached by running any action sequence from a `valid_states` state
stay in `valid_states` (in particular state 7, "Task Complete", is never
reached). -/
theorem gymsalad_run_valid : ∀ (acts : List (Fin 8)) (s s' : Nat),
    run s acts = some s' → s ∈ valid_states → s' ∈ valid_states := by
  intro acts
  induction acts with
  | nil =>
    intro s s' h hs
    simp only [run, Option.some.injEq] at h
    exact h ▸ hs
  | cons a rest ih =>
    intro s s' h hs
    have hok := gymsalad_step_ok_all s hs a
    simp only [run] at h
    cases hstep : step s a with
    | none => rw [hstep] at h; exact absurd h (by simp)
    | some t =>
      obtain ⟨ns, r, d⟩ := t
      rw [hstep] at h
      have hnv : ns ∈ valid_states ∧ d = false := by
        simpa [step_ok, hstep] using hok
      exact ih ns s' h hnv.1

/-- C9: in gym_salad.py, after any finite sequence of the 8 agent actions from
`reset`, the state is never 7 ("Task Complete") and the next `step` returns
`done = false`; moreover state 6 ("Serving") is absorbing, because its only
outgoing transition is labelled "Complete", which is not an agent action. -/
theorem C9_step_never_done (acts : List (Fin 8)) (s : Nat) (a : Fin 8)
    (h : run reset acts = some s) :
    s ≠ 7 ∧ (step s a).map (fun t => t.2.2) = some false ∧
      (∀ b : Fin 8, (step 6 b).map (fun t => t.fst) = some 6) := by
  have hs : s ∈ valid_states := gymsalad_run_valid acts reset s h (by decide)
  have hok := gymsalad_step_ok_all s hs a
  refine ⟨by rintro rfl; simp [valid_states] at hs, ?_, by decide⟩
  cases hstep : step s a with
  | none => simp [step_ok, hstep] at hok
  | some t =>
    obtain ⟨ns, r, d⟩ := t
    have hnv : ns ∈ valid_states ∧ d = false := by
      simpa [step_ok, hstep] using hok
    simp [hstep, hnv.2]

/-- Witness for `C9_step_never_done`: the empty prefix and action 0 from
reset. -/
theorem C9_witness :
    (0 : Nat) ≠ 7 ∧ (step 0 0).map (fun t => t.2.2) = some false ∧
      (∀ b : Fin 8, (step 6 b).map (fun t => t.fst) = some 6) :=
  C9_step_never_done [] 0 0 rfl

end ClaimsGymSalad

section ClaimsViolations

open RepoText

/-- `lookup` after `map_key` at the mapped key. -/
theorem lookup_map_key_self (v : List (String × PyVal)) (k : String) (g : PyVal → PyVal) :
    (map_key v k g).lookup k = (v.lookup k).map g := by
  induction v with
  | nil => rfl
  | cons p t ih =>
    obtain ⟨a, b⟩ := p
    simp only [map_key]
    by_cases hp : a = k
    · subst hp
      rw [if_pos rfl]
      have hb : (a == a) = true := by simp
      simp [List.lookup, hb]
    · rw [if_neg hp]
      have hb : (k == a) = false := by simpa using fun h => hp h.symm
      simp only [List.lookup, hb]
      exact ih

/-- `lookup` after `map_key` at any other key. -/
theorem lookup_map_key_ne (v : List (String × PyVal)) (k k' : String) (g : PyVal → PyVal)
    (h : k' ≠ k) :
    (map_key v k g).lookup k' = v.lookup k' := by
  induction v with
  | nil => rfl
  | cons p t ih =>
    obtain ⟨a, b⟩ := p
    simp only [map_key]
    by_cases hp : a = k
    · subst hp
      rw [if_pos rfl]
      have hb : (k' == a) = false := by simpa using h
      simp only [List.lookup, hb]
      exact ih
    · rw [if_neg hp]
      cases hbv : (k' == a) <;> simp only [List.lookup, hbv]
      exact ih

/-- The type invariant of a `violations` record: `"calories"` holds an int,
`"allergies"` a list, `"availability"` a dict. -/
def ViolTyOk (v : List (String × PyVal)) : Prop :=
  (v.lookup "calories").map PyVal.ty = some PyTy.int ∧
  (v.lookup "allergies").map PyVal.ty = some PyTy.list ∧
  (v.lookup "availability").map PyVal.ty = some PyTy.dict

/-- Every reachable `violations` value, in either file, keeps the initial
dynamic types of all three entries. -/
theorem violReachable_tyOk {f : ViolFile} {v : List (String × PyVal)}
    (h : ViolReachable f v) : ViolTyOk v := by
  induction h with
  | init f => exact ⟨rfl, rfl, rfl⟩
  | set_cal f v n hv ih =>
    obtain ⟨h1, h2, h3⟩ := ih
    refine ⟨?_, ?_, ?_⟩
    · rw [set_calories, lookup_map_key_self]
      cases hl : v.lookup "calories" with
      | none => rw [hl] at h1; simp at h1
      | some val => simp [PyVal.ty]
    · rw [set_calories, lookup_map_key_ne _ _ _ _ (by decide)]; exact h2
    · rw [set_calories, lookup_map_key_ne _ _ _ _ (by decide)]; exact h3
  | add_allergy f v s hv ih =>
    obtain ⟨h1, h2, h3⟩ := ih
    refine ⟨?_, ?_, ?_⟩
    · rw [append_allergy, lookup_map_key_ne _ _ _ _ (by decide)]; exact h1
    · rw [append_allergy, lookup_map_key_self]
      cases hl : v.lookup "allergies" with
      | none => rw [hl] at h2; simp at h2
      | some val =>
        rw [hl] at h2
        cases val <;> simp_all [PyVal.ty]
    · rw [append_allergy, lookup_map_key_ne _ _ _ _ (by decide)]; exact h3
  | avail_unavailable v name hv ih =>
    obtain ⟨h1, h2, h3⟩ := ih
    refine ⟨?_, ?_, ?_⟩
    · rw [set_availability, lookup_map_key_ne _ _ _ _ (by decide)]; exact h1
    · rw [set_availability, lookup_map_key_ne _ _ _ _ (by decide)]; exact h2
    · rw [set_availability, lookup_map_key_self]
      cases hl : v.lookup "availability" with
      | none => rw [hl] at h3; simp at h3
      | some val =>
        rw [hl] at h3
        cases val <;> simp_all [PyVal.ty]
  | avail_excess v name n hv ih =>
    obtain ⟨h1, h2, h3⟩ := ih
    refine ⟨?_, ?_, ?_⟩
    · rw [set_availability, lookup_map_key_ne _ _ _ _ (by decide)]; exact h1
    · rw [set_availability, lookup_map_key_ne _ _ _ _ (by decide)]; exact h2
    · rw [set_availability, lookup_map_key_self]
      cases hl : v.lookup "availability" with
      | none => rw [hl] at h3; simp at h3
      | some val =>
        rw [hl] at h3
        cases val <;> simp_all [PyVal.ty]

/-- C4 (counterexample): the claim needs `violations["allergies"]` to hold a
dict in one file and an int in another, but in every file that maintains a
violations record and at every reachable value of it, the entry under
`"allergies"` is a list. -/
theorem C4_counterexample :
    ¬ ∃ (f : ViolFile) (v : List (String × PyVal)), ViolReachable f v ∧
        ((v.lookup "allergies").map PyVal.ty = some PyTy.dict ∨
         (v.lookup "allergies").map PyVal.ty = some PyTy.int) := by
  rintro ⟨f, v, hv, hc | hc⟩ <;>
    · have := (violReachable_tyOk hv).2.1
      rw [hc] at this
      exact absurd (Option.some.inj this) (by decide)

/-- C4 as amended: the types of the `violations` entries differ across *keys*,
not across files — in both files that maintain a violations record
(updated_mdp.py and gym_constrained_mdp.py), every reachable value keeps
`violations["allergies"]` a list, `violations["calories"]` an int, and
`violations["availability"]` a dict. -/
theorem C4_amended_allergies_always_list (f : ViolFile) (v : List (String × PyVal))
    (h : ViolReachable f v) :
    (v.lookup "allergies").map PyVal.ty = some PyTy.list ∧
    (v.lookup "calories").map PyVal.ty = some PyTy.int ∧
    (v.lookup "availability").map PyVal.ty = some PyTy.dict :=
  ⟨(violReachable_tyOk h).2.1, (violReachable_tyOk h).1, (violReachable_tyOk h).2.2⟩

/-- Witness for `C4_amended_allergies_always_list`: the initial record of
updated_mdp.py after logging one allergy violation. -/
theorem C4_witness :
    ((append_allergy violations_init "peanuts").lookup "allergies").map PyVal.ty =
        some PyTy.list ∧
    ((append_allergy violations_init "peanuts").lookup "calories").map PyVal.ty =
        some PyTy.int ∧
    ((append_allergy violations_init "peanuts").lookup "availability").map PyVal.ty =
        some PyTy.dict :=
  C4_amended_allergies_always_list ViolFile.updated_mdp _
    (ViolReachable.add_allergy _ _ "peanuts" (ViolReachable.init _))

end ClaimsViolations

section ClaimsInitialize

open GymConstrained

/-- Bindings already in an association list survive appending. -/
theorem lookup_append_of_some {β : Type} (l1 l2 : List (String × β)) (k : String) (v : β)
    (h : l1.lookup k = some v) : (l1 ++ l2).lookup k = some v := by
  induction l1 with
  | nil => simp [List.lookup] at h
  | cons p t ih =>
    obtain ⟨a, b⟩ := p
    simp only [List.cons_append, List.lookup] at h ⊢
    cases hb : (k == a) with
    | true => simp only [hb] at h ⊢; exact h
    | false => simp only [hb] at h ⊢; exact ih h

/-- Looking up a key absent from the left part of an append searches the
right part. -/
theorem lookup_append_of_none {β : Type} (l1 l2 : List (String × β)) (k : String)
    (h : l1.lookup k = none) : (l1 ++ l2).lookup k = l2.lookup k := by
  induction l1 with
  | nil => rfl
  | cons p t ih =>
    obtain ⟨a, b⟩ := p
    simp only [List.cons_append, List.lookup] at h ⊢
    cases hb : (k == a) with
    | true => simp only [hb] at h; exact absurd h (by simp)
    | false => simp only [hb] at h ⊢; exact ih h

/-- `initialize_go` only ever appends to the accumulated ingredients dict, so
existing bindings survive to the result. -/
theorem initialize_go_preserves :
    ∀ (l : List (String × GRecipeEntry)) (acc : List (String × Ingredient))
      (av : List (String × AvailViol)) (res : List (String × Ingredient))
      (vres : List (String × AvailViol)),
      initialize_go l acc av = Except.ok (res, vres) →
      ∀ (k : String) (v : Ingredient), acc.lookup k = some v → res.lookup k = some v := by
  intro l
  induction l with
  | nil =>
    intro acc av res vres h k v hk
    simp only [initialize_go, Except.ok.injEq, Prod.mk.injEq] at h
    rw [← h.1]
    exact hk
  | cons p rest ih =>
    intro acc av res vres h k v hk
    obtain ⟨n0, d0⟩ := p
    simp only [initialize_go] at h
    split at h
    · exact ih _ _ _ _ h k v hk
    · split at h
      · exact ih _ _ _ _ h k v hk
      · split at h
        · exact absurd h (by simp)
        · exact ih _ _ _ _ h k v (lookup_append_of_some _ _ _ _ hk)

/-- `assign_prep_flow` succeeds exactly onto the amended flow description. -/
theorem assign_prep_flow_ok (ing : Ingredient) (pm : Option String) (ing' : Ingredient)
    (h : assign_prep_flow ing pm = Except.ok ing') :
    some ing'.prep_flow = amended_prep_flow ing.prep_flow ing.cls pm := by
  cases pm with
  | none =>
    simp only [assign_prep_flow, Except.ok.injEq] at h
    cases hc : ing.cls <;> rw [hc] at h <;> simp at h <;>
      rw [← h] <;> simp [amended_prep_flow]
  | some pmv =>
    simp only [assign_prep_flow] at h
    by_cases hcond : ("Prepare" ∈ (possible_actions ing.cls).map Prod.fst) ∧
        pmv ∉ prepare_list ing.cls
    · rw [if_pos hcond] at h
      exact absurd h (by simp)
    · rw [if_neg hcond] at h
      cases hc : ing.cls with
      | Vegetable =>
        have hm : pmv ∈ prepare_list IngClass.Vegetable := by
          by_contra hno
          exact hcond ⟨by rw [hc]; decide, by rw [hc]; exact hno⟩
        have hpl : prepare_list IngClass.Vegetable = ["Chop", "Dice", "Shred"] := by decide
        rw [hpl] at hm
        simp only [hc, Except.ok.injEq, reduceCtorEq, if_true, if_false, ite_true,
          ite_false, reduceIte] at h
        rw [← h]
        simp only [amended_prep_flow]
        rw [if_pos hm]
      | Nuts =>
        have hm : pmv ∈ prepare_list IngClass.Nuts := by
          by_contra hno
          exact hcond ⟨by rw [hc]; decide, by rw [hc]; exact hno⟩
        have hpl : prepare_list IngClass.Nuts = ["Crush", "Dice", "Grind"] := by decide
        rw [hpl] at hm
        simp only [hc, Except.ok.injEq, reduceCtorEq, if_true, if_false, ite_true,
          ite_false, reduceIte] at h
        rw [← h]
        simp only [amended_prep_flow]
        rw [if_pos hm]
      | Dressing =>
        simp only [hc, Except.ok.injEq, reduceCtorEq, if_true, if_false, ite_true,
          ite_false, reduceIte] at h
        rw [← h]
        simp [amended_prep_flow]

/-- The induction behind the amended C3: a recipe entry that survives the
availability and quantity checks ends up in the result with exactly the
amended prep flow. -/
theorem initialize_go_prep_flow :
    ∀ (l : List (String × GRecipeEntry)) (acc : List (String × Ingredient))
      (av : List (String × AvailViol)) (res : List (String × Ingredient))
      (vres : List (String × AvailViol)),
      initialize_go l acc av = Except.ok (res, vres) →
      ∀ (name : String) (details : GRecipeEntry) (bing : Ingredient),
        (name, details) ∈ l → (l.map Prod.fst).Nodup →
        acc.lookup name = none →
        AVAILABLE_INGREDIENTS.lookup name = some bing →
        details.quantity.getD 0 ≤ bing.available_quantity →
        (res.lookup name).map (fun i => i.prep_flow) =
          amended_prep_flow bing.prep_flow bing.cls details.prep_method := by
  intro l
  induction l with
  | nil =>
    intro acc av res vres h name details bing hmem
    exact absurd hmem (by simp)
  | cons p rest ih =>
    intro acc av res vres h name details bing hmem hnd hacc hbank hqty
    obtain ⟨n0, d0⟩ := p
    simp only [initialize_go] at h
    rcases List.mem_cons.mp hmem with heq | hmem2
    · injection heq with h1 h2
      subst h1
      subst h2
      split at h
      · next hb0 => rw [hbank] at hb0; exact absurd hb0 (by simp)
      · next ing0 hb0 =>
        rw [hbank, Option.some.injEq] at hb0
        subst hb0
        split at h
        · next hlt => exact absurd hlt (by simpa using hqty)
        · split at h
          · exact absurd h (by simp)
          · next ing' hasg =>
            have hres : res.lookup name = some ing' := by
              refine initialize_go_preserves _ _ _ _ _ h name ing' ?_
              rw [lookup_append_of_none _ _ _ hacc]
              simp [List.lookup]
            rw [hres]
            have hflow := assign_prep_flow_ok _ _ _ hasg
            simp only at hflow
            simpa using hflow
    · have hname : name ∈ rest.map Prod.fst :=
        List.mem_map_of_mem Prod.fst hmem2
      have hne : name ≠ n0 := by
        intro e
        subst e
        exact (List.nodup_cons.mp hnd).1 hname
      have hnd2 : (rest.map Prod.fst).Nodup := (List.nodup_cons.mp hnd).2
      split at h
      · exact ih _ _ _ _ h name details bing hmem2 hnd2 hacc hbank hqty
      · split at h
        · exact ih _ _ _ _ h name details bing hmem2 hnd2 hacc hbank hqty
        · split at h
          · exact absurd h (by simp)
          · next ing0' hasg =>
            refine ih _ _ _ _ h name details bing hmem2 hnd2 ?_ hbank hqty
            rw [lookup_append_of_none _ _ _ hacc]
            have hb : (name == n0) = false := by simpa using hne
            simp [List.lookup, hb]

/-- C3 as amended: in `initialize_ingredients`, for every recipe entry naming an
available ingredient with sufficient quantity, the assigned `prep_flow` is:
for a Vegetable, `["Measure", "Wash", pm, "Combine"]` when the given
`prep_method` `pm` is among its Prepare actions (an invalid one raises
`ValueError`) and `["Measure", "Wash", "Combine"]` when none is given; for Nuts,
`["Measure", pm, "Roast", "Combine"]` under the same proviso and
`["Measure", "Roast", "Combine"]` when none is given; for a Dressing,
`["Measure", "Combine"]` when no `prep_method` is given — but when one is given
the flow is left unchanged (empty for the bank's ingredients), not
`["Measure", "Combine"]`. -/
theorem C3_amended_prep_flow (recipe : List (String × GRecipeEntry))
    (name : String) (details : GRecipeEntry) (bing : Ingredient)
    (ings : List (String × Ingredient)) (viols : List (String × AvailViol))
    (hnd : (recipe.map Prod.fst).Nodup)
    (hok : initialize_ingredients recipe = Except.ok (ings, viols))
    (hmem : (name, details) ∈ recipe)
    (hbank : AVAILABLE_INGREDIENTS.lookup name = some bing)
    (hqty : details.quantity.getD 0 ≤ bing.available_quantity) :
    (ings.lookup name).map (fun i => i.prep_flow) =
      amended_prep_flow bing.prep_flow bing.cls details.prep_method :=
  initialize_go_prep_flow recipe [] [] ings viols hok name details bing hmem hnd rfl
    hbank hqty

/-- Witness for `C3_amended_prep_flow`: a one-entry Dressing recipe without a
prep method gets `["Measure", "Combine"]`. -/
theorem C3_witness :
    (([("sesame_dressing",
        { name := "sesame_dressing", cls := IngClass.Dressing, available_quantity := 100,
          calories := 60, dietary_restrictions := [], requested_quantity := 10,
          prep_flow := ["Measure", "Combine"] })] :
        List (String × Ingredient)).lookup "sesame_dressing").map (fun i => i.prep_flow) =
      amended_prep_flow [] IngClass.Dressing none :=
  C3_amended_prep_flow
    [("sesame_dressing", { type := some "Dressing", quantity := some 10 })]
    "sesame_dressing" { type := some "Dressing", quantity := some 10 }
    { name := "sesame_dressing", cls := IngClass.Dressing, available_quantity := 100,
      calories := 60, dietary_restrictions := [] }
    _ _ (by decide) rfl (by simp) rfl (by decide)

end ClaimsInitialize



section ClaimsSaladEnv

open UpdatedMdp

/-- `available_ingredients.get(name, True)` is truthy for every name. -/
theorem available_get_truthy_eq_true (x : Option String) :
    available_get_truthy x = true := by
  unfold available_get_truthy
  split <;> rfl

/-- A key that occurs among an association list's keys has a lookup value. -/
theorem lookup_some_of_mem_keys {β : Type} (l : List (String × β)) (k : String)
    (h : k ∈ l.map Prod.fst) : ∃ v, l.lookup k = some v := by
  induction l with
  | nil => simp at h
  | cons p t ih =>
    obtain ⟨a, b⟩ := p
    by_cases hk : k = a
    · subst hk
      exact ⟨b, by simp [List.lookup]⟩
    · have hb : (k == a) = false := by simpa using hk
      simp only [List.map_cons, List.mem_cons] at h
      rcases h with h | h
      · exact absurd h hk
      · obtain ⟨v, hv⟩ := ih h
        exact ⟨v, by simp [List.lookup, hb, hv]⟩

/-- `track_constraints` only writes calories, violations and warnings. -/
theorem track_constraints_fields (env : SaladEnv) (info : IngredientInfo) :
    (track_constraints env info).recipe = env.recipe ∧
    (track_constraints env info).current_ingredient = env.current_ingredient ∧
    (track_constraints env info).state = env.state ∧
    (track_constraints env info).completed_ingredients = env.completed_ingredients ∧
    (track_constraints env info).done = env.done :=
  ⟨rfl, rfl, rfl, rfl, rfl⟩

/-- `calculate_reward` only writes `current_calories`, the violations record and
`warnings`: the recipe, current ingredient, per-ingredient state, completed set
and done flag are untouched. -/
theorem calculate_reward_core {env : SaladEnv} {a : String} {r : Int} {env' : SaladEnv}
    (h : calculate_reward env a = some (r, env')) :
    env'.recipe = env.recipe ∧ env'.current_ingredient = env.current_ingredient ∧
    env'.state = env.state ∧ env'.completed_ingredients = env.completed_ingredients ∧
    env'.done = env.done := by
  simp only [calculate_reward] at h
  split at h
  · simp only [Option.some.injEq, Prod.mk.injEq] at h
    obtain ⟨-, rfl⟩ := h
    exact ⟨rfl, rfl, rfl, rfl, rfl⟩
  · split at h
    · simp only [Option.some.injEq, Prod.mk.injEq] at h
      obtain ⟨-, rfl⟩ := h
      exact ⟨rfl, rfl, rfl, rfl, rfl⟩
    · split at h
      · simp only [Option.some.injEq, Prod.mk.injEq] at h
        obtain ⟨-, rfl⟩ := h
        exact ⟨rfl, rfl, rfl, rfl, rfl⟩
      · split at h
        · exact absurd h (by simp)
        · simp only [Option.some.injEq, Prod.mk.injEq] at h
          obtain ⟨-, rfl⟩ := h
          exact track_constraints_fields env _

/-- `set_next_ingredient` keeps the recipe and either selects a current
ingredient from the recipe's keys or (when everything is completed) leaves the
current ingredient unchanged. -/
theorem set_next_ingredient_cases (env : SaladEnv) :
    (set_next_ingredient env).recipe = env.recipe ∧
    ((∃ c, (set_next_ingredient env).current_ingredient = some c ∧
        c ∈ env.recipe.map Prod.fst) ∨
      (set_next_ingredient env).current_ingredient = env.current_ingredient) := by
  unfold set_next_ingredient
  constructor
  · split <;> rfl
  · split
    · next i t heq =>
      exact Or.inl ⟨i, rfl, List.mem_of_mem_filter (heq ▸ List.mem_cons_self i t)⟩
    · exact Or.inr rfl

/-- The invariant behind C1: a current ingredient is selected and is one of the
recipe's keys. -/
def CurrentValid (env : SaladEnv) : Prop :=
  ∃ c, env.current_ingredient = some c ∧ c ∈ env.recipe.map Prod.fst

/-- If anything remains to prepare, `set_next_ingredient` selects a valid
current ingredient. -/
theorem set_next_valid_of_remaining_ne {env : SaladEnv}
    (h : (env.recipe.map Prod.fst).filter
        (fun i => i ∉ env.completed_ingredients) ≠ []) :
    CurrentValid (set_next_ingredient env) := by
  unfold set_next_ingredient CurrentValid
  split
  · next i t heq =>
    exact ⟨i, rfl, List.mem_of_mem_filter (heq ▸ List.mem_cons_self i t)⟩
  · next heq => exact absurd heq h

/-- `add_completed` writes only the completed set. -/
theorem add_completed_fields (env : SaladEnv) :
    (add_completed env).recipe = env.recipe ∧
    (add_completed env).current_ingredient = env.current_ingredient := by
  unfold add_completed
  split <;> exact ⟨rfl, rfl⟩

/-- `append_action` writes only the action history. -/
theorem append_action_fields (env : SaladEnv) (s : String) :
    (append_action env s).recipe = env.recipe ∧
    (append_action env s).current_ingredient = env.current_ingredient :=
  ⟨rfl, rfl⟩

/-- One `step` keeps the recipe and preserves `CurrentValid`. -/
theorem step_preserves {env : SaladEnv} {a : Fin 9} {r : Int} {env' : SaladEnv}
    (h : step env a = some (r, env')) :
    env'.recipe = env.recipe ∧ (CurrentValid env → CurrentValid env') := by
  simp only [step] at h
  split at h
  · simp only [Option.some.injEq, Prod.mk.injEq] at h
    obtain ⟨-, rfl⟩ := h
    exact ⟨rfl, id⟩
  · split at h
    · exact absurd h (by simp)
    · next rw0 env1 hcalc =>
      have hcore := calculate_reward_core hcalc
      split at h
      · simp only [Option.some.injEq, Prod.mk.injEq] at h
        obtain ⟨-, rfl⟩ := h
        constructor
        · rw [(set_next_ingredient_cases _).1, (add_completed_fields _).1,
            (append_action_fields _ _).1, hcore.1]
        · intro hv
          rcases (set_next_ingredient_cases _).2 with ⟨c2, hc2, hm2⟩ | hsame
          · refine ⟨c2, hc2, ?_⟩
            rw [(set_next_ingredient_cases _).1, (add_completed_fields _).1,
              (append_action_fields _ _).1, hcore.1]
            rw [(add_completed_fields _).1, (append_action_fields _ _).1, hcore.1] at hm2
            exact hm2
          · obtain ⟨c0, hc0, hm0⟩ := hv
            refine ⟨c0, ?_, ?_⟩
            · rw [hsame, (add_completed_fields _).2, (append_action_fields _ _).2,
                hcore.2.1]
              exact hc0
            · rw [(set_next_ingredient_cases _).1, (add_completed_fields _).1,
                (append_action_fields _ _).1, hcore.1]
              exact hm0
      · simp only [Option.some.injEq, Prod.mk.injEq] at h
        obtain ⟨-, rfl⟩ := h
        refine ⟨(append_action_fields _ _).1.trans hcore.1, fun hv => ?_⟩
        obtain ⟨c0, hc0, hm0⟩ := hv
        refine ⟨c0, ?_, ?_⟩
        · rw [(append_action_fields _ _).2, hcore.2.1]
          exact hc0
        · rw [(append_action_fields _ _).1, hcore.1]
          exact hm0

/-- Running any action sequence keeps the recipe and preserves `CurrentValid`. -/
theorem run_preserves : ∀ (acts : List (Fin 9)) (env env' : SaladEnv),
    UpdatedMdp.run env acts = some env' →
    env'.recipe = env.recipe ∧ (CurrentValid env → CurrentValid env') := by
  intro acts
  induction acts with
  | nil =>
    intro env env' h
    simp only [UpdatedMdp.run, Option.some.injEq] at h
    subst h
    exact ⟨rfl, id⟩
  | cons a rest ih =>
    intro env env' h
    simp only [UpdatedMdp.run] at h
    cases hstep : step env a with
    | none => rw [hstep] at h; exact absurd h (by simp)
    | some p =>
      obtain ⟨r, env1⟩ := p
      rw [hstep] at h
      have h1 := step_preserves hstep
      have h2 := ih env1 env' h
      exact ⟨h2.1.trans h1.1, fun hv => h2.2 (h1.2 hv)⟩

/-- The fresh environment keeps the given recipe. -/
theorem init_recipe (recipe : List (String × RecipeEntry)) (cal : Option Int)
    (alg : List String) : (SaladEnv.init recipe cal alg).recipe = recipe := by
  unfold SaladEnv.init reset
  exact (set_next_ingredient_cases _).1

/-- A non-empty recipe gives the fresh environment a valid current
ingredient. -/
theorem init_current_valid (recipe : List (String × RecipeEntry)) (cal : Option Int)
    (alg : List String) (h : recipe ≠ []) :
    CurrentValid (SaladEnv.init recipe cal alg) := by
  unfold SaladEnv.init reset
  apply set_next_valid_of_remaining_ne
  show (recipe.map Prod.fst).filter (fun i => i ∉ ([] : List String)) ≠ []
  rw [List.filter_eq_self.mpr (fun a _ => by simp)]
  simp only [ne_eq, List.map_eq_nil_iff]
  exact h

/-- The bit-vector part of `encode_state` is below `2 ^ len(action_map)`:
folding bits over a list from `acc` stays below `(acc + 1) * 2 ^ length`. -/
theorem foldl_bits_lt (taken : List String) :
    ∀ (l : List String) (acc : Nat),
      l.foldl (fun b a => 2 * b + (if a ∈ taken then 1 else 0)) acc <
        (acc + 1) * 2 ^ l.length := by
  intro l
  induction l with
  | nil => intro acc; simp
  | cons x xs ih =>
    intro acc
    have h1 := ih (2 * acc + (if x ∈ taken then 1 else 0))
    simp only [List.foldl_cons, List.length_cons]
    refine lt_of_lt_of_le h1 ?_
    have h2 : 2 * acc + (if x ∈ taken then (1 : Nat) else 0) + 1 ≤ 2 * (acc + 1) := by
      split <;> omega
    calc (2 * acc + (if x ∈ taken then (1 : Nat) else 0) + 1) * 2 ^ xs.length
        ≤ 2 * (acc + 1) * 2 ^ xs.length := Nat.mul_le_mul_right _ h2
      _ = (acc + 1) * 2 ^ (xs.length + 1) := by ring

/-- `encode_state` in closed form once a current ingredient is selected. -/
theorem encode_state_eq_of_current {env : SaladEnv} {c : String}
    (hc : env.current_ingredient = some c) :
    encode_state env = (env.recipe.map Prod.fst).indexOf c * action_map.length +
      action_map.foldl
        (fun b a => 2 * b + (if a ∈ env.state.actions_taken then 1 else 0)) 0 := by
  unfold encode_state
  rw [hc]

/-- C1: for every `SaladEnv` built from a non-empty recipe whose ingredient
names all occur in `AVAILABLE_INGREDIENTS`, every state index `encode_state`
produces on a reachable state is strictly below
`2 ** len(action_map) * len(recipe)`, the number of Q-table rows `train_agent`
allocates — so the Q-learning lookups and updates never index out of bounds. -/
theorem C1_encode_state_lt_qtable_rows
    (recipe : List (String × RecipeEntry)) (cal : Option Int) (alg : List String)
    (acts : List (Fin 9)) (env' : SaladEnv)
    (hne : recipe ≠ [])
    (_hav : ∀ p ∈ recipe, p.fst ∈ AVAILABLE_INGREDIENTS.map Prod.fst)
    (hrun : UpdatedMdp.run (SaladEnv.init recipe cal alg) acts = some env') :
    encode_state env' < train_agent_num_states env' := by
  have hpres := run_preserves acts _ env' hrun
  obtain ⟨c, hc, hcm⟩ := hpres.2 (init_current_valid recipe cal alg hne)
  have hrec : env'.recipe = recipe := hpres.1.trans (init_recipe recipe cal alg)
  rw [encode_state_eq_of_current hc]
  unfold train_agent_num_states
  have hidx : (env'.recipe.map Prod.fst).indexOf c < env'.recipe.length := by
    have := List.indexOf_lt_length.mpr hcm
    simpa using this
  have hbits := foldl_bits_lt env'.state.actions_taken action_map 0
  rw [action_map_length] at hbits ⊢
  have hn : 1 ≤ env'.recipe.length := by
    rw [hrec]
    exact List.length_pos.mpr hne
  have hb512 : action_map.foldl
      (fun b a => 2 * b + (if a ∈ env'.state.actions_taken then 1 else 0)) 0 < 512 := by
    simpa using hbits
  omega

/-- Witness for `C1_encode_state_lt_qtable_rows`: the reset state of the
one-ingredient recipe. -/
theorem C1_witness :
    encode_state (SaladEnv.init tomato_recipe (some 300) ["peanut"]) <
      train_agent_num_states (SaladEnv.init tomato_recipe (some 300) ["peanut"]) :=
  C1_encode_state_lt_qtable_rows tomato_recipe (some 300) ["peanut"] [] _
    (by decide) (by decide) rfl

end ClaimsSaladEnv

section ClaimsReward

open UpdatedMdp

/-- The reward-adjustment chain collapses for a "Combine" action: none of the
wash/roast/dressing/processing blocks applies, leaving only the
repeat-an-action penalty. -/
theorem action_reward_combine (st : IngredientState) :
    action_reward st "Combine" = if "Combine" ∈ st.actions_taken then (-50 : Int) else 0 := by
  unfold action_reward
  simp

/-- C2: `get_required_actions` is exactly `{"Measure"}`, extended with `"Wash"`
iff the ingredient's type is `"Vegetable"` and with `"Roast"` iff its type is
`"Nuts"`; and for a "Combine" action past the early returns ("Measure" already
taken), `calculate_reward` returns the repeat penalty plus the `+100` completion
bonus exactly when the previously taken actions form a superset of the required
set. -/
theorem C2_required_actions_and_combine_bonus (env : SaladEnv) :
    (∀ a, a ∈ get_required_actions env.state ↔
      (a = "Measure" ∨ (a = "Wash" ∧ env.state.type = some "Vegetable") ∨
       (a = "Roast" ∧ env.state.type = some "Nuts"))) ∧
    (∀ nm, env.state.ingredient = some nm →
      nm ∈ AVAILABLE_INGREDIENTS.map Prod.fst →
      env.state.actions_taken ≠ [] →
      "Measure" ∈ env.state.actions_taken →
      (calculate_reward env "Combine").map Prod.fst =
        some ((if "Combine" ∈ env.state.actions_taken then (-50 : Int) else 0) +
          (if (get_required_actions env.state).all
              (fun a => a ∈ env.state.actions_taken) = true then (100 : Int) else 0))) := by
  constructor
  · intro a
    unfold get_required_actions
    by_cases ht1 : env.state.type = some "Vegetable"
    · simp [ht1]
    · by_cases ht2 : env.state.type = some "Nuts"
      · simp [ht1, ht2]
      · simp [ht1, ht2]
  · intro nm hnm hmem hne hMe
    obtain ⟨info, hinfo⟩ := lookup_some_of_mem_keys _ _ hmem
    unfold calculate_reward
    rw [if_neg (by simp [available_get_truthy_eq_true]),
      if_neg (by simp [hne]), if_neg (not_not_intro hMe), hnm]
    rw [show (some nm).bind (fun n => AVAILABLE_INGREDIENTS.lookup n) =
        AVAILABLE_INGREDIENTS.lookup nm from rfl, hinfo]
    simp only [Option.map_some']
    rw [action_reward_combine]
    unfold combine_bonus
    simp

end ClaimsReward

section ClaimsRewardWitness

open UpdatedMdp

/-- A concrete mid-episode environment: preparing `tomato` (a Vegetable) with
`["Measure", "Wash"]` already taken. -/
def c2_env : SaladEnv :=
  { recipe := tomato_recipe
    constraints_calories := some 300
    constraints_allergies := []
    violations_calories := 0
    violations_allergies := []
    completed_ingredients := []
    warnings := []
    current_calories := 0
    current_ingredient := some "tomato"
    state := { ingredient := some "tomato", type := some "Vegetable",
               prep_method := some "Dice", actions_taken := ["Measure", "Wash"] }
    done := false }

/-- Witness for `C2_required_actions_and_combine_bonus`: on `c2_env` the
required set is `{"Measure", "Wash"}`, the superset check passes, and the
"Combine" reward is the full `+100` bonus. -/
theorem C2_witness :
    ("Wash" ∈ get_required_actions c2_env.state ↔
      ("Wash" = "Measure" ∨ ("Wash" = "Wash" ∧ c2_env.state.type = some "Vegetable") ∨
       ("Wash" = "Roast" ∧ c2_env.state.type = some "Nuts"))) ∧
    (calculate_reward c2_env "Combine").map Prod.fst = some 100 := by
  have h := C2_required_actions_and_combine_bonus c2_env
  refine ⟨h.1 "Wash", ?_⟩
  have h2 := h.2 "tomato" rfl (by decide) (by decide) (by decide)
  rw [h2]
  decide

end ClaimsRewardWitness
